import Mathlib

/-!
Verification of the HTTP cache coordination core (net/http/http_cache.cc).

The development shallowly embeds the coordination logic of `HttpCache`:
active entries with a multi-reader / single-writer discipline, the per-key
pending-operation registry, the deferred queue-drain mechanism, the
pending-op completion protocol, cancellation, backend construction and
cache-key generation.  Pointers become values, pointer identity becomes
structural identity on values carrying explicit ids where needed, and the
asynchronous callback machinery is modelled by explicit notification lists
(a notification records which transaction is called back, with which status
and whether a non-null entry pointer is delivered).
-/

namespace HttpCache

/-! ### Status codes (net error codes; numeric values opaque to the core) -/

def OK : Int := 0
def ERR_IO_PENDING : Int := -1
def ERR_FAILED : Int := -2
def ERR_CACHE_RACE : Int := -405
def ERR_CACHE_CREATE_FAILURE : Int := -406

/-! ### Transactions

Modelled from the spec: the transaction class lives in
net/http/http_cache_transaction.cc, which is not under src/.  The core only
reads its identity, its mode bitmask (READ and WRITE bits, NONE = 0,
READ_WRITE = READ | WRITE) and its cache key; the completion callback is
modelled by notification events naming the transaction. -/

def MODE_NONE : Nat := 0
def MODE_READ : Nat := 3
def MODE_WRITE : Nat := 4
def MODE_READ_WRITE : Nat := 7

structure Trans where
  tid : Nat
  mode : Nat
  key : String
deriving DecidableEq, Repr

/-- Test of `trans->mode() & Transaction::WRITE`. -/
def transWantsWrite (t : Trans) : Bool := t.mode &&& MODE_WRITE != 0

/-! ### Active entries -/

/-- In-memory coordinator for one opened backend entry
(struct `HttpCache::ActiveEntry`).  The backend entry handle is modelled by
the key it carries (`disk_entry_key`); while an entry is active the handle
is non-null. -/
structure ActiveEntry where
  disk_entry_key : String
  writer : Option Trans
  readers : List Trans
  pending_queue : List Trans
  doomed : Bool
  will_process_pending_queue : Bool
deriving DecidableEq, Repr

/-- Constructor `ActiveEntry::ActiveEntry(disk_cache::Entry* e)`. -/
def ActiveEntry.new (key : String) : ActiveEntry :=
  { disk_entry_key := key, writer := none, readers := [], pending_queue := [],
    doomed := false, will_process_pending_queue := false }

/-- `HttpCache::ProcessPendingQueue`: coalesce drain requests; when the flag
is not yet set, set it and post a one-shot `OnProcessPendingQueue` task.
The posted task is modelled by the flag itself. -/
def ProcessPendingQueue (entry : ActiveEntry) : ActiveEntry :=
  if entry.will_process_pending_queue then entry
  else { entry with will_process_pending_queue := true }

/-- `HttpCache::AddTransactionToEntry`: the reader/writer admission rule.
Returns the status handed back to the transaction and the updated entry. -/
def AddTransactionToEntry (entry : ActiveEntry) (trans : Trans) :
    Int × ActiveEntry :=
  if entry.writer.isSome || entry.will_process_pending_queue then
    (ERR_IO_PENDING, { entry with pending_queue := entry.pending_queue ++ [trans] })
  else if transWantsWrite trans then
    if entry.readers.isEmpty then
      let e2 : ActiveEntry := { entry with writer := some trans }
      (OK, if e2.writer.isNone && !e2.pending_queue.isEmpty
           then ProcessPendingQueue e2 else e2)
    else
      (ERR_IO_PENDING, { entry with pending_queue := entry.pending_queue ++ [trans] })
  else
    let e2 : ActiveEntry := { entry with readers := entry.readers ++ [trans] }
    (OK, if e2.writer.isNone && !e2.pending_queue.isEmpty
         then ProcessPendingQueue e2 else e2)

/-- C1: admission contract of `AddTransactionToEntry`.  With a writer
present or a drain scheduled the transaction is queued and PENDING is
returned; otherwise a write-mode transaction becomes the writer with OK
exactly when the readers set is empty (else it is queued with PENDING); a
read-only transaction is appended to the readers with OK; and after an
immediate admission leaving no writer and a non-empty pending queue, a
deferred drain is scheduled. -/
theorem addTransactionToEntry_contract (e : ActiveEntry) (t : Trans) :
    (e.writer.isSome = true ∨ e.will_process_pending_queue = true →
       AddTransactionToEntry e t =
         (ERR_IO_PENDING, { e with pending_queue := e.pending_queue ++ [t] })) ∧
    (e.writer = none → e.will_process_pending_queue = false →
       (transWantsWrite t = true →
          (e.readers = [] →
             (AddTransactionToEntry e t).1 = OK ∧
             (AddTransactionToEntry e t).2.writer = some t) ∧
          (e.readers ≠ [] →
             AddTransactionToEntry e t =
               (ERR_IO_PENDING,
                { e with pending_queue := e.pending_queue ++ [t] }))) ∧
       (transWantsWrite t = false →
          (AddTransactionToEntry e t).1 = OK ∧
          (AddTransactionToEntry e t).2.readers = e.readers ++ [t]) ∧
       ((AddTransactionToEntry e t).1 = OK →
          (AddTransactionToEntry e t).2.writer = none →
          (AddTransactionToEntry e t).2.pending_queue ≠ [] →
          (AddTransactionToEntry e t).2.will_process_pending_queue = true)) := by
  refine ⟨?_, ?_⟩
  · intro h
    have hcond : (e.writer.isSome || e.will_process_pending_queue) = true := by
      rcases h with h | h <;> simp [h]
    simp [AddTransactionToEntry, hcond]
  · intro hw hf
    have hcond : (e.writer.isSome || e.will_process_pending_queue) = false := by
      simp [hw, hf]
    refine ⟨?_, ?_, ?_⟩
    · intro hwrite
      constructor
      · intro hro
        simp [AddTransactionToEntry, hcond, hwrite, hro, hw, hf, ProcessPendingQueue]
      · intro hro
        have : e.readers.isEmpty = false := by
          cases hr : e.readers with
          | nil => exact absurd hr hro
          | cons a l => simp
        simp [AddTransactionToEntry, hcond, hwrite, this, hw, hf]
    · intro hread
      by_cases hq : e.pending_queue.isEmpty
      · simp [AddTransactionToEntry, hcond, hread, hq, hw, hf]
      · simp [AddTransactionToEntry, hcond, hread, hq, hw, hf, ProcessPendingQueue]
    · intro hok hwnone hqne
      by_cases hwrite : transWantsWrite t = true
      · by_cases hro : e.readers.isEmpty
        · exfalso
          have : (AddTransactionToEntry e t).2.writer = some t := by
            simp [AddTransactionToEntry, hcond, hwrite, hro, hw, hf]
          rw [this] at hwnone
          exact Option.noConfusion hwnone
        · exfalso
          have hpd : (AddTransactionToEntry e t).1 = ERR_IO_PENDING := by
            simp [AddTransactionToEntry, hcond, hwrite, hro, hw, hf]
          rw [hpd] at hok
          simp [OK, ERR_IO_PENDING] at hok
      · have hwrite' : transWantsWrite t = false := by
          simpa using hwrite
        by_cases hq : e.pending_queue.isEmpty
        · exfalso
          have : (AddTransactionToEntry e t).2.pending_queue = e.pending_queue := by
            simp [AddTransactionToEntry, hcond, hwrite', hq, hw, hf]
          rw [this] at hqne
          cases hqq : e.pending_queue with
          | nil => exact hqne hqq
          | cons a l => rw [hqq] at hq; simp at hq
        · simp [AddTransactionToEntry, hcond, hwrite', hq, hw, hf, ProcessPendingQueue]

/-! ### Releasing an entry -/

/-- Outcome of a per-entry operation: the surviving entry (none when the
active entry was destroyed), whether `disk_entry->Doom()` fired, and the
callback notifications delivered, in order. -/
structure ReleaseResult where
  entry : Option ActiveEntry
  doomed_disk : Bool
  notifications : List (Trans × Int)
deriving DecidableEq, Repr

/-- `HttpCache::DoneWritingToEntry`.  On success the writer slot is cleared
and a drain is scheduled; on failure the pending queue is swapped out, the
disk entry is doomed, the entry is destroyed (`DestroyEntry`) and every
queued transaction is signalled with ERR_CACHE_RACE. -/
def DoneWritingToEntry (entry : ActiveEntry) (success : Bool) : ReleaseResult :=
  let e2 : ActiveEntry := { entry with writer := none }
  if success then
    { entry := some (ProcessPendingQueue e2), doomed_disk := false,
      notifications := [] }
  else
    { entry := none, doomed_disk := true,
      notifications := e2.pending_queue.map (fun t => (t, ERR_CACHE_RACE)) }

/-- `HttpCache::DoneReadingFromEntry`: drop the reader and drain. -/
def DoneReadingFromEntry (entry : ActiveEntry) (trans : Trans) : ReleaseResult :=
  { entry := some (ProcessPendingQueue
      { entry with readers := entry.readers.erase trans }),
    doomed_disk := false, notifications := [] }

/-- `HttpCache::DoneWithEntry`.  `truncOk` is the value returned by
`trans->AddTruncatedFlag()` when that hook fires; the second component of
the result records whether the hook was invoked. -/
def DoneWithEntry (entry : ActiveEntry) (trans : Trans) (cancel : Bool)
    (truncOk : Bool) : ReleaseResult × Bool :=
  if entry.will_process_pending_queue && entry.readers.isEmpty then
    ({ entry := some entry, doomed_disk := false, notifications := [] }, false)
  else if entry.writer.isSome then
    (DoneWritingToEntry entry (cancel && truncOk), cancel)
  else
    (DoneReadingFromEntry entry trans, false)

/-- `HttpCache::ConvertWriterToReader`: the writer becomes a reader and the
queue is drained.  The null-writer case is unreachable
(`DCHECK(entry->writer)`). -/
def ConvertWriterToReader (entry : ActiveEntry) : ActiveEntry :=
  match entry.writer with
  | none => entry
  | some w =>
      ProcessPendingQueue
        { entry with writer := none, readers := entry.readers ++ [w] }

/-- `HttpCache::OnProcessPendingQueue`: the deferred queue-drain tick. -/
def OnProcessPendingQueue (entry : ActiveEntry) :
    Option ActiveEntry × List (Trans × Int) :=
  let e : ActiveEntry := { entry with will_process_pending_queue := false }
  match e.pending_queue with
  | [] => if e.readers.isEmpty then (none, []) else (some e, [])
  | next :: rest =>
      if transWantsWrite next && !e.readers.isEmpty then (some e, [])
      else
        let step := AddTransactionToEntry { e with pending_queue := rest } next
        (some step.2, if step.1 != ERR_IO_PENDING then [(next, step.1)] else [])

/-- Invariant A: a present writer excludes readers. -/
def InvA (e : ActiveEntry) : Prop := e.writer.isSome = true → e.readers = []

instance (e : ActiveEntry) : Decidable (InvA e) := by
  unfold InvA; infer_instance

lemma processPendingQueue_writer (e : ActiveEntry) :
    (ProcessPendingQueue e).writer = e.writer := by
  unfold ProcessPendingQueue; split <;> rfl

lemma processPendingQueue_readers (e : ActiveEntry) :
    (ProcessPendingQueue e).readers = e.readers := by
  unfold ProcessPendingQueue; split <;> rfl

lemma invA_processPendingQueue (e : ActiveEntry) (h : InvA e) :
    InvA (ProcessPendingQueue e) := by
  intro hw
  rw [processPendingQueue_writer] at hw
  rw [processPendingQueue_readers]
  exact h hw

lemma invA_addTransactionToEntry (e : ActiveEntry) (t : Trans) (h : InvA e) :
    InvA (AddTransactionToEntry e t).2 := by
  by_cases hc : (e.writer.isSome || e.will_process_pending_queue) = true
  · have h2 : (AddTransactionToEntry e t).2.writer = e.writer ∧
        (AddTransactionToEntry e t).2.readers = e.readers := by
      simp [AddTransactionToEntry, hc]
    intro hw
    rw [h2.1] at hw
    rw [h2.2]
    exact h hw
  · have hcf : (e.writer.isSome || e.will_process_pending_queue) = false := by
      simpa using hc
    have hwn : e.writer.isSome = false := by
      cases hws : e.writer.isSome
      · rfl
      · rw [hws] at hcf; simp at hcf
    have hwe : e.writer = none := Option.not_isSome_iff_eq_none.mp (by simp [hwn])
    have hff : e.will_process_pending_queue = false := by
      cases hfs : e.will_process_pending_queue
      · rfl
      · rw [hfs] at hcf; simp at hcf
    by_cases hwr : transWantsWrite t = true
    · by_cases hro : e.readers.isEmpty = true
      · have hre : e.readers = [] := by simpa using hro
        have h2 : (AddTransactionToEntry e t).2.readers = e.readers := by
          simp [AddTransactionToEntry, hcf, hwn, hwe, hff, hwr, hro,
            processPendingQueue_readers]
        intro _
        rw [h2, hre]
      · have hrof : e.readers.isEmpty = false := by simpa using hro
        have h2 : (AddTransactionToEntry e t).2.writer = e.writer ∧
            (AddTransactionToEntry e t).2.readers = e.readers := by
          simp [AddTransactionToEntry, hcf, hwn, hwe, hff, hwr, hrof]
        intro hw
        rw [h2.1] at hw
        rw [h2.2]
        exact h hw
    · have hwrf : transWantsWrite t = false := by simpa using hwr
      have h2 : (AddTransactionToEntry e t).2.writer = none := by
        by_cases hq : e.pending_queue.isEmpty = true <;>
          simp [AddTransactionToEntry, hcf, hwn, hwe, hff, hwrf, hq,
            ProcessPendingQueue]
      intro hw
      rw [h2] at hw
      simp at hw

lemma invA_doneWithEntry (e : ActiveEntry) (t : Trans) (cancel truncOk : Bool)
    (h : InvA e) (e2 : ActiveEntry)
    (he2 : (DoneWithEntry e t cancel truncOk).1.entry = some e2) : InvA e2 := by
  unfold DoneWithEntry at he2
  by_cases hg : (e.will_process_pending_queue && e.readers.isEmpty) = true
  · rw [if_pos hg] at he2
    simp at he2
    rw [← he2]
    exact h
  · rw [if_neg hg] at he2
    by_cases hw : e.writer.isSome = true
    · rw [if_pos hw] at he2
      unfold DoneWritingToEntry at he2
      by_cases hs : (cancel && truncOk) = true
      · rw [if_pos hs] at he2
        simp at he2
        rw [← he2]
        intro hww
        rw [processPendingQueue_writer] at hww
        simp at hww
      · rw [if_neg hs] at he2
        simp at he2
    · rw [if_neg hw] at he2
      unfold DoneReadingFromEntry at he2
      simp at he2
      rw [← he2]
      intro hww
      rw [processPendingQueue_writer] at hww
      simp at hww
      rw [hww] at hw
      simp at hw

lemma invA_convertWriterToReader (e : ActiveEntry) (h : InvA e) :
    InvA (ConvertWriterToReader e) := by
  unfold ConvertWriterToReader
  cases hw : e.writer with
  | none => exact h
  | some w =>
      intro hww
      rw [processPendingQueue_writer] at hww
      simp at hww

lemma invA_onProcessPendingQueue (e : ActiveEntry) (hw : e.writer = none)
    (e2 : ActiveEntry) (he2 : (OnProcessPendingQueue e).1 = some e2) :
    InvA e2 := by
  have h0 : InvA { e with will_process_pending_queue := false } := by
    intro hww
    simp [hw] at hww
  unfold OnProcessPendingQueue at he2
  cases hq : ({ e with will_process_pending_queue := false} :
      ActiveEntry).pending_queue with
  | nil =>
      rw [hq] at he2
      by_cases hr : ({ e with will_process_pending_queue := false} :
          ActiveEntry).readers.isEmpty = true
      · simp [hr] at he2
      · simp [hr] at he2
        rw [← he2]
        exact h0
  | cons next rest =>
      rw [hq] at he2
      by_cases hwait : (transWantsWrite next &&
          !({ e with will_process_pending_queue := false} :
            ActiveEntry).readers.isEmpty) = true
      · simp only [hwait, if_true] at he2
        simp at he2
        rw [← he2]
        exact h0
      · simp only [hwait, if_false] at he2
        simp at he2
        rw [← he2]
        apply invA_addTransactionToEntry
        intro hww
        simp [hw] at hww

/-- C2: Invariant A (`writer ≠ null ⇒ readers = ∅`) holds for a freshly
activated entry and is preserved by `AddTransactionToEntry`,
`DoneWithEntry`, `ConvertWriterToReader` and the deferred queue-drain tick
`OnProcessPendingQueue` (which runs with no writer installed). -/
theorem invA_preserved (e e2 : ActiveEntry) (t : Trans)
    (cancel truncOk : Bool) (k : String) (h : InvA e) :
    InvA (ActiveEntry.new k) ∧
    InvA (AddTransactionToEntry e t).2 ∧
    ((DoneWithEntry e t cancel truncOk).1.entry = some e2 → InvA e2) ∧
    InvA (ConvertWriterToReader e) ∧
    (e.writer = none → (OnProcessPendingQueue e).1 = some e2 → InvA e2) := by
  refine ⟨?_, ?_, ?_, ?_, ?_⟩
  · intro hw
    simp [ActiveEntry.new] at hw
  · exact invA_addTransactionToEntry e t h
  · intro he2
    exact invA_doneWithEntry e t cancel truncOk h e2 he2
  · exact invA_convertWriterToReader e h
  · intro hw he2
    exact invA_onProcessPendingQueue e hw e2 he2

/-- Closed witness for C2: a reader-holding entry satisfies the invariant
and the operations keep it. -/
theorem invA_preserved_witness :
    InvA { disk_entry_key := "k", writer := none,
           readers := [{ tid := 2, mode := MODE_READ, key := "k" }],
           pending_queue := [{ tid := 3, mode := MODE_READ_WRITE, key := "k" }],
           doomed := false, will_process_pending_queue := false } ∧
    InvA (AddTransactionToEntry
      { disk_entry_key := "k", writer := none,
        readers := [{ tid := 2, mode := MODE_READ, key := "k" }],
        pending_queue := [{ tid := 3, mode := MODE_READ_WRITE, key := "k" }],
        doomed := false, will_process_pending_queue := false }
      { tid := 4, mode := MODE_READ, key := "k" }).2 := by
  have h := invA_preserved
    { disk_entry_key := "k", writer := none,
      readers := [{ tid := 2, mode := MODE_READ, key := "k" }],
      pending_queue := [{ tid := 3, mode := MODE_READ_WRITE, key := "k" }],
      doomed := false, will_process_pending_queue := false }
    (ActiveEntry.new "k")
    { tid := 4, mode := MODE_READ, key := "k" } false false "k"
    (by decide)
  exact ⟨by decide, h.2.1⟩

/-- C5: contract of `DoneWritingToEntry`.  On success the writer slot is
cleared, a drain is scheduled, nothing is doomed and nobody is notified; on
failure the entry is destroyed, the disk entry is doomed, and every queued
transaction is notified exactly once with ERR_CACHE_RACE, in queue order. -/
theorem doneWritingToEntry_contract (e : ActiveEntry) :
    ((DoneWritingToEntry e true).doomed_disk = false ∧
     (DoneWritingToEntry e true).notifications = [] ∧
     ∃ e2, (DoneWritingToEntry e true).entry = some e2 ∧
       e2.writer = none ∧ e2.will_process_pending_queue = true ∧
       e2.pending_queue = e.pending_queue ∧ e2.readers = e.readers) ∧
    ((DoneWritingToEntry e false).entry = none ∧
     (DoneWritingToEntry e false).doomed_disk = true ∧
     (DoneWritingToEntry e false).notifications =
       e.pending_queue.map (fun t => (t, ERR_CACHE_RACE))) := by
  constructor
  · refine ⟨rfl, rfl, ProcessPendingQueue { e with writer := none }, rfl,
      ?_, ?_, ?_, ?_⟩
    · rw [processPendingQueue_writer]
    · unfold ProcessPendingQueue
      split
      · next hpp => simpa using hpp
      · rfl
    · unfold ProcessPendingQueue
      split <;> rfl
    · rw [processPendingQueue_readers]
  · exact ⟨rfl, rfl, rfl⟩

/-- C10: frame property of `DoneWithEntry`.  With the drain flag set and no
readers, the call returns at once: the entry is untouched, nothing is
doomed, no notification fires and the mark-truncated hook is not invoked,
for every `cancel` value and every transaction. -/
theorem doneWithEntry_frame (e : ActiveEntry) (t : Trans)
    (cancel truncOk : Bool) (hflag : e.will_process_pending_queue = true)
    (hro : e.readers = []) :
    DoneWithEntry e t cancel truncOk =
      ({ entry := some e, doomed_disk := false, notifications := [] }, false) := by
  unfold DoneWithEntry
  rw [if_pos]
  simp [hflag, hro]

/-- Closed witness for C10: a writer-held entry with the drain flag set. -/
theorem doneWithEntry_frame_witness :
    DoneWithEntry
      { disk_entry_key := "k",
        writer := some { tid := 1, mode := MODE_READ_WRITE, key := "k" },
        readers := [], pending_queue := [], doomed := false,
        will_process_pending_queue := true }
      { tid := 1, mode := MODE_READ_WRITE, key := "k" } true false =
      ({ entry := some
           { disk_entry_key := "k",
             writer := some { tid := 1, mode := MODE_READ_WRITE, key := "k" },
             readers := [], pending_queue := [], doomed := false,
             will_process_pending_queue := true },
         doomed_disk := false, notifications := [] }, false) :=
  doneWithEntry_frame
    { disk_entry_key := "k",
      writer := some { tid := 1, mode := MODE_READ_WRITE, key := "k" },
      readers := [], pending_queue := [], doomed := false,
      will_process_pending_queue := true }
    { tid := 1, mode := MODE_READ_WRITE, key := "k" } true false rfl rfl

/-- Closed witness for C1 at a concrete entry and transaction. -/
theorem addTransactionToEntry_contract_witness :
    (AddTransactionToEntry (ActiveEntry.new "k")
        { tid := 1, mode := MODE_READ_WRITE, key := "k" }).1 = OK ∧
    (AddTransactionToEntry (ActiveEntry.new "k")
        { tid := 1, mode := MODE_READ_WRITE, key := "k" }).2.writer =
      some { tid := 1, mode := MODE_READ_WRITE, key := "k" } := by
  have h := addTransactionToEntry_contract (ActiveEntry.new "k")
    { tid := 1, mode := MODE_READ_WRITE, key := "k" }
  exact (h.2 (by decide) (by decide)).1 (by decide) |>.1 (by decide)

end HttpCache

namespace HttpCache

/-! ### Cache key generation (`HttpCache::GenerateCacheKey`) -/

/-- Cache mode (`HttpCache::Mode`). -/
inductive Mode
  | NORMAL
  | RECORD
  | PLAYBACK
  | DISABLE
deriving DecidableEq, Repr

/-- Modelled from the spec: decimal digits of the generation counter.
`base::IntToString` (base/string_number_conversions) is not under src/; the
spec prescribes the decimal rendering of the counter. -/
def decChars (n : Nat) : List Char :=
  if n = 0 then ['0'] else ((Nat.digits 10 n).map Nat.digitChar).reverse

/-- Modelled from the spec: `base::IntToString`, decimal rendering. -/
def IntToString (n : Nat) : String := ⟨decChars n⟩

/-- Request data consumed by `GenerateCacheKey`.  The `url` field is the
result of `HttpUtil::SpecForRequest` (reference, username and password
already stripped; that helper is not under src/), and `uploadId` models
`request->upload_data->identifier()` with `none` for a null upload. -/
structure RequestInfo where
  url : String
  method : String
  uploadId : Option Nat
deriving DecidableEq, Repr

/-- Overwriting insert into an association map, modelling `map[k] = v` on
the std::map members of the cache. -/
def mapSet {B : Type} (m : List (String × B)) (k : String) (v : B) :
    List (String × B) :=
  match m with
  | [] => [(k, v)]
  | (k2, v2) :: rest =>
      if k2 = k then (k, v) :: rest else (k2, v2) :: mapSet rest k v

/-- `HttpCache::GenerateCacheKey`.  In NORMAL mode the key is the stripped
URL, optionally prefixed by the upload identifier and a slash; in RECORD
and PLAYBACK modes the key is the decimal per-URL generation counter,
then the method, then the URL, and the counter is bumped.  DISABLE is
forbidden (`DCHECK(mode_ != DISABLE)`); that arm is never exercised. -/
def GenerateCacheKey (mode : Mode) (map : List (String × Nat))
    (req : RequestInfo) : String × List (String × Nat) :=
  match mode with
  | Mode.NORMAL =>
      (match req.uploadId with
       | some uid => if uid ≠ 0 then IntToString uid ++ "/" ++ req.url else req.url
       | none => req.url,
       map)
  | Mode.DISABLE => ("", map)
  | _ =>
      let generation : Nat := (map.lookup req.url).getD 0
      (IntToString generation ++ req.method ++ req.url,
       mapSet map req.url (generation + 1))

/-- Iterated key computation: the list of keys produced by `n` successive
calls to `GenerateCacheKey`, threading the playback map through. -/
def GenerateKeys (mode : Mode) (req : RequestInfo) :
    Nat → List (String × Nat) → List String
  | 0, _ => []
  | n + 1, m =>
      let r := GenerateCacheKey mode m req
      r.1 :: GenerateKeys mode req n r.2

lemma lookup_mapSet_self {B : Type} (m : List (String × B)) (k : String)
    (v : B) : (mapSet m k v).lookup k = some v := by
  induction m with
  | nil => simp [mapSet, List.lookup]
  | cons p rest ih =>
      obtain ⟨k2, v2⟩ := p
      by_cases h : k2 = k
      · simp [mapSet, h, List.lookup]
      · have hne : (k == k2) = false := by
          simp [Ne.symm h]
        simp [mapSet, h, List.lookup, ih, hne]

lemma digitChar_inj_lt10 :
    ∀ a, a < 10 → ∀ b, b < 10 → Nat.digitChar a = Nat.digitChar b → a = b := by
  decide

lemma map_digitChar_inj (l1 : List Nat) :
    ∀ l2 : List Nat, (∀ x ∈ l1, x < 10) → (∀ x ∈ l2, x < 10) →
      l1.map Nat.digitChar = l2.map Nat.digitChar → l1 = l2 := by
  induction l1 with
  | nil =>
      intro l2 _ _ h
      cases l2 with
      | nil => rfl
      | cons b t2 => simp at h
  | cons a t ih =>
      intro l2 h1 h2 h
      cases l2 with
      | nil => simp at h
      | cons b t2 =>
          simp only [List.map_cons, List.cons.injEq] at h
          have hab : a = b :=
            digitChar_inj_lt10 a (h1 a (by simp)) b (h2 b (by simp)) h.1
          have ht : t = t2 :=
            ih t2 (fun x hx => h1 x (by simp [hx]))
              (fun x hx => h2 x (by simp [hx])) h.2
          rw [hab, ht]

lemma decChars_singleton_zero (b : Nat) (hb : b ≠ 0) :
    decChars b ≠ ['0'] := by
  intro h
  unfold decChars at h
  rw [if_neg hb] at h
  have hlen : ((Nat.digits 10 b).map Nat.digitChar).reverse.length = 1 := by
    rw [h]; rfl
  simp only [List.length_reverse, List.length_map] at hlen
  obtain ⟨d, hd⟩ := List.length_eq_one.mp hlen
  rw [hd] at h
  simp only [List.map_cons, List.map_nil, List.reverse_cons, List.reverse_nil,
    List.nil_append, List.cons.injEq, and_true] at h
  have hdlt : d < 10 := Nat.digits_lt_base (by norm_num) (by rw [hd]; simp)
  have hdz : d = 0 := digitChar_inj_lt10 d hdlt 0 (by norm_num) (by simpa using h)
  have hofb := Nat.ofDigits_digits 10 b
  rw [hd, hdz] at hofb
  simp [Nat.ofDigits] at hofb
  exact hb hofb.symm

lemma decChars_injective : Function.Injective decChars := by
  intro a b h
  by_cases ha : a = 0 <;> by_cases hb : b = 0
  · rw [ha, hb]
  · exfalso
    apply decChars_singleton_zero b hb
    rw [← h, ha]
    rfl
  · exfalso
    apply decChars_singleton_zero a ha
    rw [h, hb]
    rfl
  · unfold decChars at h
    rw [if_neg ha, if_neg hb] at h
    have hmaps := List.reverse_injective h
    have hdigits := map_digitChar_inj (Nat.digits 10 a) (Nat.digits 10 b)
      (fun x hx => Nat.digits_lt_base (by norm_num) hx)
      (fun x hx => Nat.digits_lt_base (by norm_num) hx) hmaps
    exact Nat.digits_inj_iff.mp hdigits

lemma intToString_append2_injective (m u : String) :
    Function.Injective (fun g => IntToString g ++ m ++ u) := by
  intro a b h
  dsimp only at h
  have hdata := congrArg String.data h
  rw [String.data_append, String.data_append, String.data_append,
    String.data_append] at hdata
  rw [List.append_assoc, List.append_assoc] at hdata
  exact decChars_injective (List.append_cancel_right hdata)

lemma generateKeys_record_playback (req : RequestInfo) (mode : Mode)
    (hmode : mode = Mode.RECORD ∨ mode = Mode.PLAYBACK) :
    ∀ (n g : Nat) (m : List (String × Nat)),
      (m.lookup req.url).getD 0 = g →
      GenerateKeys mode req n m =
        (List.range' g n).map (fun i => IntToString i ++ req.method ++ req.url) := by
  intro n
  induction n with
  | zero => intro g m _; rfl
  | succ n ih =>
      intro g m hg
      have hkey : GenerateCacheKey mode m req =
          (IntToString g ++ req.method ++ req.url,
           mapSet m req.url (g + 1)) := by
        rcases hmode with h | h <;> rw [h] <;>
          simp [GenerateCacheKey, hg]
      have hnext : ((mapSet m req.url (g + 1)).lookup req.url).getD 0 = g + 1 := by
        rw [lookup_mapSet_self]; rfl
      show (GenerateCacheKey mode m req).1 ::
          GenerateKeys mode req n (GenerateCacheKey mode m req).2 = _
      rw [hkey]
      rw [ih (g + 1) (mapSet m req.url (g + 1)) hnext]
      rw [List.range'_succ]
      rfl

/-- C9: in RECORD or PLAYBACK mode the key is the decimal generation
counter, then the method, then the canonicalized URL; the per-URL counter
is bumped on every computation; and starting from a map with no entry for
the URL, `n` successive computations produce the keys with generation
prefixes `0, 1, ..., n-1` in order, all distinct. -/
theorem generateCacheKey_record_playback (mode : Mode)
    (m : List (String × Nat)) (req : RequestInfo) (n : Nat)
    (hmode : mode = Mode.RECORD ∨ mode = Mode.PLAYBACK)
    (hfresh : m.lookup req.url = none) :
    (GenerateCacheKey mode m req).1 =
      IntToString ((m.lookup req.url).getD 0) ++ req.method ++ req.url ∧
    ((GenerateCacheKey mode m req).2.lookup req.url =
      some ((m.lookup req.url).getD 0 + 1)) ∧
    GenerateKeys mode req n m =
      (List.range n).map (fun i => IntToString i ++ req.method ++ req.url) ∧
    (GenerateKeys mode req n m).Nodup := by
  have hkeys := generateKeys_record_playback req mode hmode n 0 m
    (by rw [hfresh]; rfl)
  have hrange : List.range' 0 n = List.range n := by
    rw [List.range_eq_range']
  refine ⟨?_, ?_, ?_, ?_⟩
  · rcases hmode with h | h <;> rw [h] <;> simp [GenerateCacheKey]
  · rcases hmode with h | h <;> rw [h] <;>
      simp [GenerateCacheKey, lookup_mapSet_self]
  · rw [hkeys, hrange]
  · rw [hkeys, hrange]
    exact List.Nodup.map (intToString_append2_injective req.method req.url)
      (List.nodup_range n)

end HttpCache

namespace HttpCache

/-- Closed witness for C9 at mode RECORD, a fresh map and three fetches. -/
theorem generateCacheKey_record_playback_witness :
    GenerateKeys Mode.RECORD { url := "u", method := "GET", uploadId := none }
        3 [] =
      (List.range 3).map
        (fun i => IntToString i ++ "GET" ++ "u") :=
  (generateCacheKey_record_playback Mode.RECORD []
    { url := "u", method := "GET", uploadId := none } 3
    (Or.inl rfl) rfl).2.2.1

/-! ### Work items and the pending-operation registry -/

/-- The type of operation represented by a work item
(enum `WorkItemOperation`). -/
inductive WIOperation
  | WI_CREATE_BACKEND
  | WI_OPEN_ENTRY
  | WI_CREATE_ENTRY
  | WI_DOOM_ENTRY
deriving DecidableEq, Repr

/-- One queued request to the backend (class `HttpCache::WorkItem`).  The
out-parameter `entry_` and the user callback `callback_` are modelled by
flags recording whether the pointer is non-null. -/
structure WorkItem where
  operation : WIOperation
  trans : Option Trans
  entrySlot : Bool
  callbackSlot : Bool
deriving DecidableEq, Repr

/-- `WorkItem::Matches`. -/
def WorkItem.Matches (w : WorkItem) (t : Trans) : Bool := w.trans == some t

/-- `WorkItem::IsValid`. -/
def WorkItem.IsValid (w : WorkItem) : Bool :=
  w.trans.isSome || w.entrySlot || w.callbackSlot

/-- `WorkItem::ClearTransaction`. -/
def WorkItem.ClearTransaction (w : WorkItem) : WorkItem := { w with trans := none }

/-- `WorkItem::ClearEntry`. -/
def WorkItem.ClearEntry (w : WorkItem) : WorkItem := { w with entrySlot := false }

/-- `WorkItem::ClearCallback`. -/
def WorkItem.ClearCallback (w : WorkItem) : WorkItem := { w with callbackSlot := false }

/-- One in-flight backend call per key (struct `HttpCache::PendingOp`).
The produced backend entry handle is modelled by the key it carries
(`diskEntryKey`, `none` while null); `backendLive` models the `backend`
out-parameter. -/
structure PendingOp where
  diskEntryKey : Option String
  backendLive : Bool
  writer : Option WorkItem
  pending_queue : List WorkItem
deriving DecidableEq, Repr

/-- Freshly constructed `PendingOp`. -/
def PendingOp.new : PendingOp :=
  { diskEntryKey := none, backendLive := false, writer := none,
    pending_queue := [] }

/-- The coordination state of the cache: the members of class `HttpCache`
touched by the coordination core.  `disk_cache` and `backend_factory`
record whether those owning pointers are non-null. -/
structure CacheState where
  active_entries : List (String × ActiveEntry)
  doomed_entries : List ActiveEntry
  pending_ops : List (String × PendingOp)
  building_backend : Bool
  disk_cache : Bool
  backend_factory : Bool
deriving DecidableEq, Repr

/-- `HttpCache::FindActiveEntry`. -/
def FindActiveEntry (s : CacheState) (key : String) : Option ActiveEntry :=
  s.active_entries.lookup key

/-- `HttpCache::GetPendingOp`: the current op for the key, or a fresh one
registered in the map. -/
def GetPendingOp (m : List (String × PendingOp)) (key : String) :
    PendingOp × List (String × PendingOp) :=
  match m.lookup key with
  | some op => (op, m)
  | none => (PendingOp.new, (key, PendingOp.new) :: m)

/-- Erase the binding of `k` (first occurrence), `pending_ops_.erase(it)`. -/
def eraseAssoc {B : Type} (m : List (String × B)) (k : String) :
    List (String × B) :=
  match m with
  | [] => []
  | (k2, v) :: rest => if k2 = k then rest else (k2, v) :: eraseAssoc rest k

/-- Erase the first binding holding this op (pointer-identity search of
`DeletePendingOp`, rendered structurally). -/
def eraseOpIdent (m : List (String × PendingOp)) (op : PendingOp) :
    List (String × PendingOp) :=
  match m with
  | [] => []
  | (k2, v) :: rest => if v = op then rest else (k2, v) :: eraseOpIdent rest op

/-- `HttpCache::DeletePendingOp`: unregister by the key carried on the disk
entry when there is one, else fall back to identity search. -/
def DeletePendingOp (m : List (String × PendingOp)) (op : PendingOp) :
    List (String × PendingOp) :=
  let key := (op.diskEntryKey).getD ""
  if key ≠ "" then eraseAssoc m key else eraseOpIdent m op

end HttpCache

namespace HttpCache

/-! ### Lookup operations and backend construction

The backend adapter is external; a call into it either completes
synchronously with some status or returns ERR_IO_PENDING and fires its
completion callback later.  The immediate status of the adapter call is a
parameter (`backendRv`, `factoryRv`) of the embedded operations.  Each
operation returns the status handed to the caller, the updated state, and
whether the completion callback ran synchronously (`my_callback->Run(rv)`,
which enters `OnIOComplete`). -/

/-- `HttpCache::OpenEntry`. -/
def OpenEntry (s : CacheState) (key : String) (trans : Trans)
    (backendRv : Int) : Int × CacheState × Bool :=
  match FindActiveEntry s key with
  | some _ => (OK, s, false)
  | none =>
      let item : WorkItem :=
        { operation := WIOperation.WI_OPEN_ENTRY, trans := some trans,
          entrySlot := true, callbackSlot := false }
      let g := GetPendingOp s.pending_ops key
      match g.1.writer with
      | some _ =>
          let op2 : PendingOp :=
            { g.1 with pending_queue := g.1.pending_queue ++ [item] }
          (ERR_IO_PENDING,
           { s with pending_ops := mapSet g.2 key op2 }, false)
      | none =>
          if backendRv != ERR_IO_PENDING then
            let op2 : PendingOp := { g.1 with writer := some item.ClearTransaction }
            (backendRv, { s with pending_ops := mapSet g.2 key op2 }, true)
          else
            let op2 : PendingOp := { g.1 with writer := some item }
            (ERR_IO_PENDING,
             { s with pending_ops := mapSet g.2 key op2 }, false)

/-- `HttpCache::CreateEntry`.  The caller guarantees
`DCHECK(!FindActiveEntry(key))`. -/
def CreateEntry (s : CacheState) (key : String) (trans : Trans)
    (backendRv : Int) : Int × CacheState × Bool :=
  let item : WorkItem :=
    { operation := WIOperation.WI_CREATE_ENTRY, trans := some trans,
      entrySlot := true, callbackSlot := false }
  let g := GetPendingOp s.pending_ops key
  match g.1.writer with
  | some _ =>
      let op2 : PendingOp :=
        { g.1 with pending_queue := g.1.pending_queue ++ [item] }
      (ERR_IO_PENDING, { s with pending_ops := mapSet g.2 key op2 }, false)
  | none =>
      if backendRv != ERR_IO_PENDING then
        let op2 : PendingOp := { g.1 with writer := some item.ClearTransaction }
        (backendRv, { s with pending_ops := mapSet g.2 key op2 }, true)
      else
        let op2 : PendingOp := { g.1 with writer := some item }
        (ERR_IO_PENDING, { s with pending_ops := mapSet g.2 key op2 }, false)

/-- `HttpCache::CreateBackend`.  `hasCallback` records whether the caller
passed a completion callback; `factoryRv` is the immediate status of
`backend_factory_->CreateBackend`. -/
def CreateBackend (s : CacheState) (hasCallback : Bool) (factoryRv : Int) :
    Int × CacheState × Bool :=
  if !s.backend_factory then (ERR_FAILED, s, false)
  else
    let s1 : CacheState := { s with building_backend := true }
    let item : WorkItem :=
      { operation := WIOperation.WI_CREATE_BACKEND, trans := none,
        entrySlot := false, callbackSlot := hasCallback }
    let g := GetPendingOp s1.pending_ops ""
    match g.1.writer with
    | some _ =>
        if hasCallback then
          let op2 : PendingOp :=
            { g.1 with pending_queue := g.1.pending_queue ++ [item] }
          (ERR_IO_PENDING,
           { s1 with pending_ops := mapSet g.2 "" op2 }, false)
        else
          (ERR_IO_PENDING, { s1 with pending_ops := g.2 }, false)
    | none =>
        if factoryRv != ERR_IO_PENDING then
          let op2 : PendingOp := { g.1 with writer := some item.ClearCallback }
          (factoryRv, { s1 with pending_ops := mapSet g.2 "" op2 }, true)
        else
          let op2 : PendingOp := { g.1 with writer := some item }
          (factoryRv, { s1 with pending_ops := mapSet g.2 "" op2 }, false)

/-- `HttpCache::GetBackend` (`DCHECK(callback != NULL)`). -/
def GetBackend (s : CacheState) (factoryRv : Int) : Int × CacheState × Bool :=
  if s.disk_cache then (OK, s, false)
  else CreateBackend s true factoryRv

end HttpCache

namespace HttpCache

/-- C7 counterexample: with no active entry, no pending op and a backend
that completes the open synchronously with OK, `OpenEntry` returns OK, not
PENDING, refuting the unconditional PENDING of the claim. -/
theorem openEntry_not_always_pending :
    FindActiveEntry
      { active_entries := [], doomed_entries := [], pending_ops := [],
        building_backend := false, disk_cache := true,
        backend_factory := false } "k" = none ∧
    (OpenEntry
      { active_entries := [], doomed_entries := [], pending_ops := [],
        building_backend := false, disk_cache := true,
        backend_factory := false } "k"
      { tid := 1, mode := MODE_READ_WRITE, key := "k" } OK).1 ≠
      ERR_IO_PENDING := by
  decide

/-- C7 (amended): `OpenEntry` returns OK with the existing handle whenever
an active entry exists; otherwise it issues an OPEN_ENTRY work item and —
as does `CreateEntry` with a CREATE_ENTRY item, under the precondition of
no active entry — returns PENDING when the op already has a lead writer
(the item is queued) or the backend call itself returns PENDING; a
synchronous backend completion instead returns its status directly and
runs the completion callback. -/
theorem openEntry_createEntry_contract (s : CacheState) (key : String)
    (t : Trans) (rv : Int) :
    (∀ e, FindActiveEntry s key = some e → OpenEntry s key t rv = (OK, s, false)) ∧
    (FindActiveEntry s key = none →
       ∀ w, (GetPendingOp s.pending_ops key).1.writer = some w →
         (OpenEntry s key t rv).1 = ERR_IO_PENDING ∧
         (OpenEntry s key t rv).2.1.pending_ops.lookup key =
           some { (GetPendingOp s.pending_ops key).1 with
                    pending_queue :=
                      (GetPendingOp s.pending_ops key).1.pending_queue ++
                        [{ operation := WIOperation.WI_OPEN_ENTRY,
                           trans := some t, entrySlot := true,
                           callbackSlot := false }] }) ∧
    (FindActiveEntry s key = none →
       (GetPendingOp s.pending_ops key).1.writer = none →
       (rv = ERR_IO_PENDING → (OpenEntry s key t rv).1 = ERR_IO_PENDING) ∧
       (rv ≠ ERR_IO_PENDING →
          (OpenEntry s key t rv).1 = rv ∧ (OpenEntry s key t rv).2.2 = true)) ∧
    (FindActiveEntry s key = none →
       ∀ w, (GetPendingOp s.pending_ops key).1.writer = some w →
         (CreateEntry s key t rv).1 = ERR_IO_PENDING ∧
         (CreateEntry s key t rv).2.1.pending_ops.lookup key =
           some { (GetPendingOp s.pending_ops key).1 with
                    pending_queue :=
                      (GetPendingOp s.pending_ops key).1.pending_queue ++
                        [{ operation := WIOperation.WI_CREATE_ENTRY,
                           trans := some t, entrySlot := true,
                           callbackSlot := false }] }) ∧
    (FindActiveEntry s key = none →
       (GetPendingOp s.pending_ops key).1.writer = none →
       (rv = ERR_IO_PENDING → (CreateEntry s key t rv).1 = ERR_IO_PENDING) ∧
       (rv ≠ ERR_IO_PENDING →
          (CreateEntry s key t rv).1 = rv ∧ (CreateEntry s key t rv).2.2 = true)) := by
  refine ⟨?_, ?_, ?_, ?_, ?_⟩
  · intro e he
    simp [OpenEntry, he]
  · intro hne w hw
    constructor
    · simp [OpenEntry, hne, hw]
    · simp [OpenEntry, hne, hw, lookup_mapSet_self]
  · intro hne hw
    constructor
    · intro hrv
      simp [OpenEntry, hne, hw, hrv]
    · intro hrv
      constructor
      · simp [OpenEntry, hne, hw, hrv]
      · simp [OpenEntry, hne, hw, hrv]
  · intro _ w hw
    constructor
    · simp [CreateEntry, hw]
    · simp [CreateEntry, hw, lookup_mapSet_self]
  · intro _ hw
    constructor
    · intro hrv
      simp [CreateEntry, hw, hrv]
    · intro hrv
      constructor
      · simp [CreateEntry, hw, hrv]
      · simp [CreateEntry, hw, hrv]

/-- Closed witness for the amended C7: an active-entry hit returns OK at
once, and a fresh key with a pending backend returns PENDING. -/
theorem openEntry_createEntry_contract_witness :
    OpenEntry
      { active_entries := [("k", ActiveEntry.new "k")], doomed_entries := [],
        pending_ops := [], building_backend := false, disk_cache := true,
        backend_factory := false } "k"
      { tid := 1, mode := MODE_READ_WRITE, key := "k" } ERR_IO_PENDING =
      (OK,
       { active_entries := [("k", ActiveEntry.new "k")], doomed_entries := [],
         pending_ops := [], building_backend := false, disk_cache := true,
         backend_factory := false },
       false) := by
  have h := openEntry_createEntry_contract
    { active_entries := [("k", ActiveEntry.new "k")], doomed_entries := [],
      pending_ops := [], building_backend := false, disk_cache := true,
      backend_factory := false } "k"
    { tid := 1, mode := MODE_READ_WRITE, key := "k" } ERR_IO_PENDING
  exact h.1 (ActiveEntry.new "k") (by decide)

/-- C8 counterexample: with no live backend and no backend factory,
`GetBackend` returns ERR_FAILED, which is neither OK-with-backend nor
PENDING, refuting the claim that every non-live case returns PENDING. -/
theorem getBackend_not_always_pending :
    ({ active_entries := [], doomed_entries := [], pending_ops := [],
       building_backend := false, disk_cache := false,
       backend_factory := false } : CacheState).disk_cache = false ∧
    (GetBackend
      { active_entries := [], doomed_entries := [], pending_ops := [],
        building_backend := false, disk_cache := false,
        backend_factory := false } ERR_IO_PENDING).1 = ERR_FAILED ∧
    ERR_FAILED ≠ ERR_IO_PENDING := by
  decide

/-- C8 (amended): `GetBackend` returns OK with the backend delivered when
the backend is live; otherwise it returns ERR_FAILED when no backend
factory exists, PENDING when a backend creation is already in flight, and
the immediate status of the factory call otherwise (PENDING exactly when
the factory construction is asynchronous). -/
theorem getBackend_contract (s : CacheState) (rv : Int) :
    (s.disk_cache = true → GetBackend s rv = (OK, s, false)) ∧
    (s.disk_cache = false → s.backend_factory = false →
       GetBackend s rv = (ERR_FAILED, s, false)) ∧
    (s.disk_cache = false → s.backend_factory = true →
       (∀ w, (GetPendingOp s.pending_ops "").1.writer = some w →
          (GetBackend s rv).1 = ERR_IO_PENDING) ∧
       ((GetPendingOp s.pending_ops "").1.writer = none →
          (GetBackend s rv).1 = rv)) := by
  refine ⟨?_, ?_, ?_⟩
  · intro h
    simp [GetBackend, h]
  · intro h hb
    simp [GetBackend, CreateBackend, h, hb]
  · intro h hb
    constructor
    · intro w hw
      simp [GetBackend, CreateBackend, h, hb, hw]
    · intro hw
      by_cases hrv : rv = ERR_IO_PENDING
      · simp [GetBackend, CreateBackend, h, hb, hw, hrv]
      · simp [GetBackend, CreateBackend, h, hb, hw, hrv]

/-- Closed witness for the amended C8: a live backend returns OK. -/
theorem getBackend_contract_witness :
    GetBackend
      { active_entries := [], doomed_entries := [], pending_ops := [],
        building_backend := false, disk_cache := true,
        backend_factory := false } ERR_IO_PENDING =
      (OK,
       { active_entries := [], doomed_entries := [], pending_ops := [],
         building_backend := false, disk_cache := true,
         backend_factory := false },
       false) :=
  (getBackend_contract
     { active_entries := [], doomed_entries := [], pending_ops := [],
       building_backend := false, disk_cache := true,
       backend_factory := false } ERR_IO_PENDING).1 rfl

end HttpCache

namespace HttpCache

/-! ### Transaction cancellation (`HttpCache::RemovePendingTransaction`) -/

/-- `HttpCache::RemovePendingTransactionFromEntry`: erase the transaction
from the pending queue of the entry; reports whether it was found. -/
def RemovePendingTransactionFromEntry (entry : ActiveEntry) (trans : Trans) :
    Bool × ActiveEntry :=
  if trans ∈ entry.pending_queue then
    (true, { entry with pending_queue := entry.pending_queue.erase trans })
  else
    (false, entry)

/-- Deletion of the first queued work item whose transaction matches
(the loop of `RemovePendingTransactionFromPendingOp`). -/
def removeFirstMatch (queue : List WorkItem) (trans : Trans) :
    Bool × List WorkItem :=
  match queue with
  | [] => (false, [])
  | item :: rest =>
      if item.Matches trans then (true, rest)
      else
        let r := removeFirstMatch rest trans
        (r.1, item :: r.2)

/-- `HttpCache::RemovePendingTransactionFromPendingOp`.  When the lead
writer matches, only its transaction and entry back-pointers are cleared
and the item stays in place; otherwise the first matching queued item is
deleted.  A registered op always carries a lead writer; the null-writer
arm is unreachable. -/
def RemovePendingTransactionFromPendingOp (op : PendingOp) (trans : Trans) :
    Bool × PendingOp :=
  match op.writer with
  | some w =>
      if w.Matches trans then
        (true, { op with writer := some w.ClearTransaction.ClearEntry })
      else
        let r := removeFirstMatch op.pending_queue trans
        (r.1, { op with pending_queue := r.2 })
  | none =>
      let r := removeFirstMatch op.pending_queue trans
      (r.1, { op with pending_queue := r.2 })

/-- The doomed-entries scan of `RemovePendingTransaction`: the first doomed
entry holding the transaction loses it. -/
def removeFromDoomed (l : List ActiveEntry) (trans : Trans) :
    List ActiveEntry :=
  match l with
  | [] => []
  | e :: rest =>
      let r := RemovePendingTransactionFromEntry e trans
      if r.1 then r.2 :: rest else e :: removeFromDoomed rest trans

/-- `HttpCache::RemovePendingTransaction`: search the active entry for the
key, then (while the backend is being built) the backend-creation gate,
then the Pending Op for the key, then the doomed entries; remove the first
occurrence found. -/
def RemovePendingTransaction (s : CacheState) (trans : Trans) : CacheState :=
  let step1 : Option CacheState :=
    match s.active_entries.lookup trans.key with
    | some entry =>
        let r := RemovePendingTransactionFromEntry entry trans
        if r.1 then
          some { s with active_entries := mapSet s.active_entries trans.key r.2 }
        else none
    | none => none
  match step1 with
  | some s2 => s2
  | none =>
    let step2 : Option CacheState :=
      if s.building_backend then
        match s.pending_ops.lookup "" with
        | some op =>
            let r := RemovePendingTransactionFromPendingOp op trans
            if r.1 then
              some { s with pending_ops := mapSet s.pending_ops "" r.2 }
            else none
        | none => none
      else none
    match step2 with
    | some s2 => s2
    | none =>
      let step3 : Option CacheState :=
        match s.pending_ops.lookup trans.key with
        | some op =>
            let r := RemovePendingTransactionFromPendingOp op trans
            if r.1 then
              some { s with pending_ops := mapSet s.pending_ops trans.key r.2 }
            else none
        | none => none
      match step3 with
      | some s2 => s2
      | none =>
          { s with doomed_entries := removeFromDoomed s.doomed_entries trans }

/-- The cancellation search in the order stated by the spec: active entry,
then the Pending Op for the key, then the backend-creation gate, then the
doomed entries.  Written to compare against `RemovePendingTransaction`,
which checks the gate before the per-key op. -/
def RemovePendingTransactionSpecOrder (s : CacheState) (trans : Trans) :
    CacheState :=
  let step1 : Option CacheState :=
    match s.active_entries.lookup trans.key with
    | some entry =>
        let r := RemovePendingTransactionFromEntry entry trans
        if r.1 then
          some { s with active_entries := mapSet s.active_entries trans.key r.2 }
        else none
    | none => none
  match step1 with
  | some s2 => s2
  | none =>
    let step2 : Option CacheState :=
      match s.pending_ops.lookup trans.key with
      | some op =>
          let r := RemovePendingTransactionFromPendingOp op trans
          if r.1 then
            some { s with pending_ops := mapSet s.pending_ops trans.key r.2 }
          else none
      | none => none
    match step2 with
    | some s2 => s2
    | none =>
      let step3 : Option CacheState :=
        if s.building_backend then
          match s.pending_ops.lookup "" with
          | some op =>
              let r := RemovePendingTransactionFromPendingOp op trans
              if r.1 then
                some { s with pending_ops := mapSet s.pending_ops "" r.2 }
              else none
          | none => none
        else none
      match step3 with
      | some s2 => s2
      | none =>
          { s with doomed_entries := removeFromDoomed s.doomed_entries trans }

end HttpCache

namespace HttpCache

/-- C6 counterexample: a state where the transaction is queued both in the
backend-creation gate and in the Pending Op of its key, with the backend
being built.  The code removes it from the gate first; the search order
stated by the claim would remove it from the per-key op first, leaving a
different state. -/
theorem removePendingTransaction_order_differs :
    RemovePendingTransaction
      { active_entries := [], doomed_entries := [],
        pending_ops :=
          [("",
            { diskEntryKey := none, backendLive := false,
              writer := some { operation := WIOperation.WI_CREATE_BACKEND,
                               trans := none, entrySlot := false,
                               callbackSlot := true },
              pending_queue :=
                [{ operation := WIOperation.WI_CREATE_BACKEND,
                   trans := some { tid := 9, mode := MODE_READ_WRITE, key := "k" },
                   entrySlot := false, callbackSlot := false }] }),
           ("k",
            { diskEntryKey := none, backendLive := false,
              writer := some { operation := WIOperation.WI_OPEN_ENTRY,
                               trans := some { tid := 1, mode := MODE_READ_WRITE,
                                               key := "k" },
                               entrySlot := true, callbackSlot := false },
              pending_queue :=
                [{ operation := WIOperation.WI_OPEN_ENTRY,
                   trans := some { tid := 9, mode := MODE_READ_WRITE, key := "k" },
                   entrySlot := true, callbackSlot := false }] })],
        building_backend := true, disk_cache := false, backend_factory := true }
      { tid := 9, mode := MODE_READ_WRITE, key := "k" } ≠
    RemovePendingTransactionSpecOrder
      { active_entries := [], doomed_entries := [],
        pending_ops :=
          [("",
            { diskEntryKey := none, backendLive := false,
              writer := some { operation := WIOperation.WI_CREATE_BACKEND,
                               trans := none, entrySlot := false,
                               callbackSlot := true },
              pending_queue :=
                [{ operation := WIOperation.WI_CREATE_BACKEND,
                   trans := some { tid := 9, mode := MODE_READ_WRITE, key := "k" },
                   entrySlot := false, callbackSlot := false }] }),
           ("k",
            { diskEntryKey := none, backendLive := false,
              writer := some { operation := WIOperation.WI_OPEN_ENTRY,
                               trans := some { tid := 1, mode := MODE_READ_WRITE,
                                               key := "k" },
                               entrySlot := true, callbackSlot := false },
              pending_queue :=
                [{ operation := WIOperation.WI_OPEN_ENTRY,
                   trans := some { tid := 9, mode := MODE_READ_WRITE, key := "k" },
                   entrySlot := true, callbackSlot := false }] })],
        building_backend := true, disk_cache := false, backend_factory := true }
      { tid := 9, mode := MODE_READ_WRITE, key := "k" } := by
  decide

end HttpCache

namespace HttpCache

/-- C6 (amended): the cancellation search proceeds through the active
entry for the key, then — while the backend is being built — the
backend-creation gate, then the Pending Op for the key, then the doomed
entries, removing the first occurrence found; when the occurrence is the
lead writer of a Pending Op, only the transaction and entry back-pointers
of that work item are cleared and the item stays in place. -/
theorem removePendingTransaction_contract (s : CacheState) (t : Trans) :
    (∀ e, s.active_entries.lookup t.key = some e →
       (RemovePendingTransactionFromEntry e t).1 = true →
       RemovePendingTransaction s t =
         { s with active_entries := mapSet s.active_entries t.key (RemovePendingTransactionFromEntry e t).2 }) ∧
    ((∀ e, s.active_entries.lookup t.key = some e →
        (RemovePendingTransactionFromEntry e t).1 = false) →
     s.building_backend = true →
     ∀ gop, s.pending_ops.lookup "" = some gop →
       (RemovePendingTransactionFromPendingOp gop t).1 = true →
       RemovePendingTransaction s t =
         { s with pending_ops := mapSet s.pending_ops "" (RemovePendingTransactionFromPendingOp gop t).2 }) ∧
    ((∀ e, s.active_entries.lookup t.key = some e →
        (RemovePendingTransactionFromEntry e t).1 = false) →
     (s.building_backend = false ∨
        (∀ gop, s.pending_ops.lookup "" = some gop →
           (RemovePendingTransactionFromPendingOp gop t).1 = false)) →
     ∀ kop, s.pending_ops.lookup t.key = some kop →
       (RemovePendingTransactionFromPendingOp kop t).1 = true →
       RemovePendingTransaction s t =
         { s with pending_ops := mapSet s.pending_ops t.key (RemovePendingTransactionFromPendingOp kop t).2 }) ∧
    ((∀ e, s.active_entries.lookup t.key = some e →
        (RemovePendingTransactionFromEntry e t).1 = false) →
     (s.building_backend = false ∨
        (∀ gop, s.pending_ops.lookup "" = some gop →
           (RemovePendingTransactionFromPendingOp gop t).1 = false)) →
     (∀ kop, s.pending_ops.lookup t.key = some kop →
        (RemovePendingTransactionFromPendingOp kop t).1 = false) →
     RemovePendingTransaction s t =
       { s with doomed_entries := removeFromDoomed s.doomed_entries t }) ∧
    (∀ op w, op.writer = some w → w.Matches t = true →
       RemovePendingTransactionFromPendingOp op t =
         (true, { op with writer := some w.ClearTransaction.ClearEntry })) := by
  refine ⟨?_, ?_, ?_, ?_, ?_⟩
  · intro e he hf
    simp [RemovePendingTransaction, he, hf]
  · intro ha hb gop hg hf
    cases hac : s.active_entries.lookup t.key with
    | none => simp [RemovePendingTransaction, hac, hb, hg, hf]
    | some e =>
        have hmiss := ha e hac
        simp [RemovePendingTransaction, hac, hmiss, hb, hg, hf]
  · intro ha hgate kop hk hf
    have step2none : ∀ s2 : CacheState,
        (if s.building_backend then
          match s.pending_ops.lookup "" with
          | some op =>
              let r := RemovePendingTransactionFromPendingOp op t
              if r.1 then
                some { s with pending_ops := mapSet s.pending_ops "" r.2 }
              else none
          | none => none
        else none) = (none : Option CacheState) := by
      intro _
      rcases hgate with hbf | hgm
      · simp [hbf]
      · cases hgl : s.pending_ops.lookup "" with
        | none => simp [hgl]
        | some gop => simp [hgl, hgm gop hgl]
    cases hac : s.active_entries.lookup t.key with
    | none =>
        by_cases hbb : s.building_backend = true
        · rcases hgate with hbf | hgm
          · rw [hbf] at hbb; exact absurd hbb (by simp)
          · cases hgl : s.pending_ops.lookup "" with
            | none => simp [RemovePendingTransaction, hac, hbb, hgl, hk, hf]
            | some gop =>
                simp [RemovePendingTransaction, hac, hbb, hgl, hgm gop hgl,
                  hk, hf]
        · have hbf : s.building_backend = false := by simpa using hbb
          simp [RemovePendingTransaction, hac, hbf, hk, hf]
    | some e =>
        have hmiss := ha e hac
        by_cases hbb : s.building_backend = true
        · rcases hgate with hbf | hgm
          · rw [hbf] at hbb; exact absurd hbb (by simp)
          · cases hgl : s.pending_ops.lookup "" with
            | none =>
                simp [RemovePendingTransaction, hac, hmiss, hbb, hgl, hk, hf]
            | some gop =>
                simp [RemovePendingTransaction, hac, hmiss, hbb, hgl,
                  hgm gop hgl, hk, hf]
        · have hbf : s.building_backend = false := by simpa using hbb
          simp [RemovePendingTransaction, hac, hmiss, hbf, hk, hf]
  · intro ha hgate hkm
    have hkey : ∀ s2 : CacheState,
        (match s.pending_ops.lookup t.key with
         | some op =>
             let r := RemovePendingTransactionFromPendingOp op t
             if r.1 then
               some { s with pending_ops := mapSet s.pending_ops t.key r.2 }
             else none
         | none => none) = (none : Option CacheState) := by
      intro _
      cases hkl : s.pending_ops.lookup t.key with
      | none => simp
      | some kop => simp [hkm kop hkl]
    cases hac : s.active_entries.lookup t.key with
    | none =>
        by_cases hbb : s.building_backend = true
        · rcases hgate with hbf | hgm
          · rw [hbf] at hbb; exact absurd hbb (by simp)
          · cases hgl : s.pending_ops.lookup "" with
            | none =>
                cases hkl : s.pending_ops.lookup t.key with
                | none => simp [RemovePendingTransaction, hac, hbb, hgl, hkl]
                | some kop =>
                    simp [RemovePendingTransaction, hac, hbb, hgl, hkl,
                      hkm kop hkl]
            | some gop =>
                cases hkl : s.pending_ops.lookup t.key with
                | none =>
                    simp [RemovePendingTransaction, hac, hbb, hgl,
                      hgm gop hgl, hkl]
                | some kop =>
                    simp [RemovePendingTransaction, hac, hbb, hgl,
                      hgm gop hgl, hkl, hkm kop hkl]
        · have hbf : s.building_backend = false := by simpa using hbb
          cases hkl : s.pending_ops.lookup t.key with
          | none => simp [RemovePendingTransaction, hac, hbf, hkl]
          | some kop =>
              simp [RemovePendingTransaction, hac, hbf, hkl, hkm kop hkl]
    | some e =>
        have hmiss := ha e hac
        by_cases hbb : s.building_backend = true
        · rcases hgate with hbf | hgm
          · rw [hbf] at hbb; exact absurd hbb (by simp)
          · cases hgl : s.pending_ops.lookup "" with
            | none =>
                cases hkl : s.pending_ops.lookup t.key with
                | none =>
                    simp [RemovePendingTransaction, hac, hmiss, hbb, hgl, hkl]
                | some kop =>
                    simp [RemovePendingTransaction, hac, hmiss, hbb, hgl,
                      hkl, hkm kop hkl]
            | some gop =>
                cases hkl : s.pending_ops.lookup t.key with
                | none =>
                    simp [RemovePendingTransaction, hac, hmiss, hbb, hgl,
                      hgm gop hgl, hkl]
                | some kop =>
                    simp [RemovePendingTransaction, hac, hmiss, hbb, hgl,
                      hgm gop hgl, hkl, hkm kop hkl]
        · have hbf : s.building_backend = false := by simpa using hbb
          cases hkl : s.pending_ops.lookup t.key with
          | none => simp [RemovePendingTransaction, hac, hmiss, hbf, hkl]
          | some kop =>
              simp [RemovePendingTransaction, hac, hmiss, hbf, hkl,
                hkm kop hkl]
  · intro op w hw hm
    simp [RemovePendingTransactionFromPendingOp, hw, hm]

/-- Closed witness for the amended C6: a transaction found in the pending
queue of its active entry is removed there. -/
theorem removePendingTransaction_contract_witness :
    RemovePendingTransaction
      { active_entries :=
          [("k", { disk_entry_key := "k",
                   writer := some { tid := 1, mode := MODE_READ_WRITE, key := "k" },
                   readers := [],
                   pending_queue := [{ tid := 9, mode := MODE_READ, key := "k" }],
                   doomed := false, will_process_pending_queue := false })],
        doomed_entries := [], pending_ops := [], building_backend := false,
        disk_cache := true, backend_factory := false }
      { tid := 9, mode := MODE_READ, key := "k" } =
      { active_entries :=
          [("k", { disk_entry_key := "k",
                   writer := some { tid := 1, mode := MODE_READ_WRITE, key := "k" },
                   readers := [], pending_queue := [],
                   doomed := false, will_process_pending_queue := false })],
        doomed_entries := [], pending_ops := [], building_backend := false,
        disk_cache := true, backend_factory := false } := by
  have h := (removePendingTransaction_contract
    { active_entries :=
        [("k", { disk_entry_key := "k",
                 writer := some { tid := 1, mode := MODE_READ_WRITE, key := "k" },
                 readers := [],
                 pending_queue := [{ tid := 9, mode := MODE_READ, key := "k" }],
                 doomed := false, will_process_pending_queue := false })],
      doomed_entries := [], pending_ops := [], building_backend := false,
      disk_cache := true, backend_factory := false }
    { tid := 9, mode := MODE_READ, key := "k" }).1
    { disk_entry_key := "k",
      writer := some { tid := 1, mode := MODE_READ_WRITE, key := "k" },
      readers := [],
      pending_queue := [{ tid := 9, mode := MODE_READ, key := "k" }],
      doomed := false, will_process_pending_queue := false }
    (by decide) (by decide)
  rw [h]
  decide

end HttpCache

namespace HttpCache

/-! ### Pending-op completion protocol (`HttpCache::OnIOComplete`) -/

/-- One iteration of the queued-item notification loop of
`HttpCache::OnIOComplete`: given the operation of the lead item, the lead
result, whether `FindActiveEntry` still finds the activated key at this
iteration (notification callbacks may re-enter the cache, so the lookup is
an oracle parameter), the operation of the queued item and the accumulated
`fail_requests` flag, the function returns the notification delivered to
the item — status and whether a non-null entry pointer is passed — and the
updated flag. -/
def OnIOCompleteItem (leadOp : WIOperation) (result : Int) (foundHere : Bool)
    (itemOp : WIOperation) (fail : Bool) : (Int × Bool) × Bool :=
  let fail1 :=
    if itemOp = WIOperation.WI_DOOM_ENTRY then true
    else if result = OK then (if foundHere then fail else true)
    else fail
  if fail1 then ((ERR_CACHE_RACE, false), fail1)
  else if itemOp = WIOperation.WI_CREATE_ENTRY then
    if result = OK then ((ERR_CACHE_CREATE_FAILURE, false), fail1)
    else if leadOp ≠ WIOperation.WI_CREATE_ENTRY then
      ((ERR_CACHE_RACE, false), true)
    else ((result, false), fail1)
  else
    if leadOp = WIOperation.WI_CREATE_ENTRY ∧ result ≠ OK then
      ((ERR_CACHE_RACE, false), true)
    else ((result, if result = OK then foundHere else false), fail1)

/-- The queued-item notification loop, indexed so that the oracle can
answer per iteration; produces one notification per drained item. -/
def OnIOCompleteDrain (leadOp : WIOperation) (result : Int)
    (found : Nat → Bool) :
    List WorkItem → Nat → Bool → List (Option Trans × Int × Bool)
  | [], _, _ => []
  | item :: rest, i, fail =>
      let r := OnIOCompleteItem leadOp result (found i) item.operation fail
      (item.trans, r.1.1, r.1.2) ::
        OnIOCompleteDrain leadOp result found rest (i + 1) r.2

/-- Step 4 of the completion protocol: move the queue of the op into a
local list, then unregister and delete the Pending Op (the queue swap
empties the stored op first, as `pending_items.swap` does through the
shared pointer). -/
def OnIOCompleteDetach (m : List (String × PendingOp)) (op : PendingOp) :
    List WorkItem × List (String × PendingOp) :=
  let op2 : PendingOp := { op with pending_queue := [] }
  let m2 := m.map (fun p => if p.2 = op then (p.1, op2) else p)
  (op.pending_queue, DeletePendingOp m2 op2)

/-- `HttpCache::OnIOComplete` for an op whose lead is not CREATE_BACKEND:
lead handling (activation on success of a valid non-doom lead), queue
snapshot and deletion of the Pending Op, lead notification, then the
queued-item loop.  The doom/close of an orphaned disk entry when the lead
transaction vanished is a backend-side effect outside the coordination
state.  The oracle `found` feeds the per-iteration `FindActiveEntry`
re-lookup of the loop. -/
def OnIOComplete (s : CacheState) (result : Int) (op : PendingOp)
    (found : Nat → Bool) : CacheState × List (Option Trans × Int × Bool) :=
  match op.writer with
  | none => (s, [])
  | some item =>
      let wiop := item.operation
      let lead : Bool × Bool × List (String × ActiveEntry) :=
        if result = OK then
          if wiop = WIOperation.WI_DOOM_ENTRY then
            (true, false, s.active_entries)
          else if item.IsValid then
            let key := (op.diskEntryKey).getD ""
            (false, true, mapSet s.active_entries key (ActiveEntry.new key))
          else (true, false, s.active_entries)
        else (false, false, s.active_entries)
      let detach := OnIOCompleteDetach s.pending_ops op
      let notes := OnIOCompleteDrain wiop result found detach.1 0 lead.1
      ({ s with active_entries := lead.2.2, pending_ops := detach.2 },
       (item.trans, result, lead.2.1) :: notes)

lemma lookup_eq_none_of_not_mem_keys {B : Type} (m : List (String × B))
    (k : String) (h : k ∉ m.map Prod.fst) : m.lookup k = none := by
  induction m with
  | nil => rfl
  | cons p rest ih =>
      simp only [List.map_cons, List.mem_cons] at h
      push_neg at h
      have hk : (k == p.1) = false := by
        simp [h.1]
      obtain ⟨k2, v⟩ := p
      simp only [List.lookup]
      rw [hk]
      exact ih h.2

lemma lookup_eraseAssoc_self {B : Type} (m : List (String × B)) (k : String)
    (h : (m.map Prod.fst).Nodup) : (eraseAssoc m k).lookup k = none := by
  induction m with
  | nil => rfl
  | cons p rest ih =>
      obtain ⟨k2, v⟩ := p
      simp only [List.map_cons, List.nodup_cons] at h
      by_cases hk : k2 = k
      · simp only [eraseAssoc, hk, if_true]
        apply lookup_eq_none_of_not_mem_keys
        rw [← hk]
        exact h.1
      · simp only [eraseAssoc, hk, if_false]
        have hkk : (k == k2) = false := by
          simp
          intro hh
          exact hk hh.symm
        simp only [List.lookup]
        rw [hkk]
        exact ih h.2

lemma lookup_eraseOpIdent (m : List (String × PendingOp)) (op : PendingOp)
    (k : String) (hl : m.lookup k = some op)
    (hu : ∀ p ∈ m, p.2 = op → p.1 = k) (hn : (m.map Prod.fst).Nodup) :
    (eraseOpIdent m op).lookup k = none := by
  induction m with
  | nil => rfl
  | cons p rest ih =>
      obtain ⟨k2, v⟩ := p
      simp only [List.map_cons, List.nodup_cons] at hn
      by_cases hv : v = op
      · simp only [eraseOpIdent, hv, if_true]
        have hk2 : k2 = k := hu (k2, v) (by simp) hv
        apply lookup_eq_none_of_not_mem_keys
        rw [← hk2]
        exact hn.1
      · simp only [eraseOpIdent, hv, if_false]
        have hk2 : ¬k2 = k := by
          intro he
          rw [List.lookup] at hl
          have : (k == k2) = true := by simp [he]
          rw [this] at hl
          simp at hl
          exact hv hl
        have hkk : (k == k2) = false := by
          simp
          intro hh
          exact hk2 hh.symm
        simp only [List.lookup]
        rw [hkk]
        rw [List.lookup] at hl
        rw [hkk] at hl
        exact ih hl (fun q hq hq2 => hu q (by simp [hq]) hq2) hn.2

end HttpCache

namespace HttpCache

lemma mapReplace_keys (m : List (String × PendingOp)) (op op2 : PendingOp) :
    (m.map (fun p => if p.2 = op then (p.1, op2) else p)).map Prod.fst =
      m.map Prod.fst := by
  induction m with
  | nil => rfl
  | cons p rest ih =>
      by_cases hp : p.2 = op
      · simp only [List.map_cons, hp, if_true, ih]
      · simp only [List.map_cons, hp, if_false, ih]

lemma lookup_mapReplace (m : List (String × PendingOp)) (op op2 : PendingOp)
    (k : String) (hl : m.lookup k = some op) :
    (m.map (fun p => if p.2 = op then (p.1, op2) else p)).lookup k =
      some op2 := by
  induction m with
  | nil => simp [List.lookup] at hl
  | cons p rest ih =>
      obtain ⟨k2, v⟩ := p
      simp only [List.lookup] at hl
      by_cases hv : v = op
      · simp only [List.map_cons]
        rw [if_pos hv]
        simp only [List.lookup]
        by_cases hk : (k == k2) = true
        · rw [hk]
        · have hkf : (k == k2) = false := by simpa using hk
          rw [hkf]
          rw [hkf] at hl
          exact ih hl
      · simp only [List.map_cons]
        rw [if_neg hv]
        simp only [List.lookup]
        by_cases hk : (k == k2) = true
        · rw [hk] at hl
          simp only [Option.some.injEq] at hl
          exact absurd hl hv
        · have hkf : (k == k2) = false := by simpa using hk
          rw [hkf]
          rw [hkf] at hl
          exact ih hl

lemma uniq_mapReplace (m : List (String × PendingOp)) (op op2 : PendingOp)
    (k : String)
    (hu : ∀ p ∈ m, (p.2 = op ∨ p.2 = op2) → p.1 = k) :
    ∀ p ∈ m.map (fun p => if p.2 = op then (p.1, op2) else p),
      p.2 = op2 → p.1 = k := by
  intro p hp hp2
  obtain ⟨q, hq, hfq⟩ := List.mem_map.mp hp
  by_cases hv : q.2 = op
  · rw [if_pos hv] at hfq
    rw [← hfq]
    exact hu q hq (Or.inl hv)
  · rw [if_neg hv] at hfq
    rw [← hfq]
    apply hu q hq
    rw [hfq]
    exact Or.inr hp2

/-- C4: step 4 of the completion protocol moves the queue of the op into a
local list and unregisters the Pending Op before any notification fires:
after the detach the registry no longer holds a binding for the key, a
re-entrant `GetPendingOp` for the key yields a fresh empty op (so a request
issued from inside a notification callback can never append to the
completing op), and the state in which `OnIOComplete` delivers its
notifications carries exactly the detached registry. -/
theorem onIOComplete_detach_before_notify (s : CacheState) (result : Int)
    (op : PendingOp) (k : String)
    (hl : s.pending_ops.lookup k = some op)
    (hn : (s.pending_ops.map Prod.fst).Nodup)
    (hu : ∀ p ∈ s.pending_ops,
        (p.2 = op ∨ p.2 = { op with pending_queue := [] }) → p.1 = k)
    (hdk : op.diskEntryKey = some k ∨ op.diskEntryKey = none) :
    (OnIOCompleteDetach s.pending_ops op).1 = op.pending_queue ∧
    (OnIOCompleteDetach s.pending_ops op).2.lookup k = none ∧
    (GetPendingOp (OnIOCompleteDetach s.pending_ops op).2 k).1 =
      PendingOp.new ∧
    (∀ found item, op.writer = some item →
       (OnIOComplete s result op found).1.pending_ops =
         (OnIOCompleteDetach s.pending_ops op).2) := by
  have hgone : (OnIOCompleteDetach s.pending_ops op).2.lookup k = none := by
    have hident :
        (eraseOpIdent
          (s.pending_ops.map
            (fun p => if p.2 = op then (p.1, { op with pending_queue := [] })
                      else p))
          { op with pending_queue := [] }).lookup k = none := by
      apply lookup_eraseOpIdent
      · exact lookup_mapReplace s.pending_ops op _ k hl
      · exact uniq_mapReplace s.pending_ops op _ k hu
      · rw [mapReplace_keys]
        exact hn
    show (if (op.diskEntryKey.getD "") ≠ ""
          then eraseAssoc
            (s.pending_ops.map
              (fun p => if p.2 = op then (p.1, { op with pending_queue := [] })
                        else p))
            (op.diskEntryKey.getD "")
          else eraseOpIdent
            (s.pending_ops.map
              (fun p => if p.2 = op then (p.1, { op with pending_queue := [] })
                        else p))
            { op with pending_queue := [] }).lookup k = none
    rcases hdk with hsome | hnone
    · by_cases hke : k = ""
      · have hcond : ¬(op.diskEntryKey.getD "" ≠ "") := by
          rw [hsome, hke]
          simp
        rw [if_neg hcond]
        exact hident
      · have hcond : op.diskEntryKey.getD "" ≠ "" := by
          rw [hsome]
          simpa using hke
        rw [if_pos hcond]
        have harg : op.diskEntryKey.getD "" = k := by
          rw [hsome]
          rfl
        rw [harg]
        apply lookup_eraseAssoc_self
        rw [mapReplace_keys]
        exact hn
    · have hcond : ¬(op.diskEntryKey.getD "" ≠ "") := by
        rw [hnone]
        simp
      rw [if_neg hcond]
      exact hident
  refine ⟨rfl, hgone, ?_, ?_⟩
  · unfold GetPendingOp
    rw [hgone]
  · intro found item hw
    simp only [OnIOComplete, hw]

/-- Closed witness for C4 at a one-op registry whose lead is a valid open
on key k with one queued item. -/
theorem onIOComplete_detach_before_notify_witness :
    (OnIOCompleteDetach
      [("k",
        { diskEntryKey := some "k", backendLive := false,
          writer := some { operation := WIOperation.WI_OPEN_ENTRY,
                           trans := some { tid := 1, mode := MODE_READ_WRITE,
                                           key := "k" },
                           entrySlot := true, callbackSlot := false },
          pending_queue :=
            [{ operation := WIOperation.WI_OPEN_ENTRY,
               trans := some { tid := 2, mode := MODE_READ, key := "k" },
               entrySlot := true, callbackSlot := false }] })]
      { diskEntryKey := some "k", backendLive := false,
        writer := some { operation := WIOperation.WI_OPEN_ENTRY,
                         trans := some { tid := 1, mode := MODE_READ_WRITE,
                                         key := "k" },
                         entrySlot := true, callbackSlot := false },
        pending_queue :=
          [{ operation := WIOperation.WI_OPEN_ENTRY,
             trans := some { tid := 2, mode := MODE_READ, key := "k" },
             entrySlot := true, callbackSlot := false }] }).2.lookup "k" =
      none := by
  have h := onIOComplete_detach_before_notify
    { active_entries := [], doomed_entries := [],
      pending_ops :=
        [("k",
          { diskEntryKey := some "k", backendLive := false,
            writer := some { operation := WIOperation.WI_OPEN_ENTRY,
                             trans := some { tid := 1, mode := MODE_READ_WRITE,
                                             key := "k" },
                             entrySlot := true, callbackSlot := false },
            pending_queue :=
              [{ operation := WIOperation.WI_OPEN_ENTRY,
                 trans := some { tid := 2, mode := MODE_READ, key := "k" },
                 entrySlot := true, callbackSlot := false }] })],
      building_backend := false, disk_cache := true, backend_factory := false }
    OK
    { diskEntryKey := some "k", backendLive := false,
      writer := some { operation := WIOperation.WI_OPEN_ENTRY,
                       trans := some { tid := 1, mode := MODE_READ_WRITE,
                                       key := "k" },
                       entrySlot := true, callbackSlot := false },
      pending_queue :=
        [{ operation := WIOperation.WI_OPEN_ENTRY,
           trans := some { tid := 2, mode := MODE_READ, key := "k" },
           entrySlot := true, callbackSlot := false }] }
    "k" (by decide) (by decide) (by decide) (Or.inl rfl)
  exact h.2.1

end HttpCache

namespace HttpCache

/-- C3: the queued-item notification table of the completion protocol.
The loop notifies each drained item exactly once (one notification per
item, in order); a queued DOOM_ENTRY item gets CACHE_RACE and sets the
failure flag for every later item; when the lead succeeded but the
activated entry is no longer found, the item gets CACHE_RACE and later
items fail; a queued CREATE_ENTRY item gets CACHE_CREATE_FAILURE when the
lead succeeded, CACHE_RACE (failing later items) when a non-CREATE lead
failed, and the lead status otherwise; a queued OPEN_ENTRY item gets
CACHE_RACE (failing later items) when a CREATE lead failed, and otherwise
the lead status with the entry. -/
theorem onIOComplete_drain_table (leadOp itemOp : WIOperation) (r : Int)
    (foundHere fail : Bool) (found : Nat → Bool) :
    (∀ (items : List WorkItem) (i : Nat) (f : Bool),
       (OnIOCompleteDrain leadOp r found items i f).length = items.length) ∧
    (OnIOCompleteItem leadOp r foundHere WIOperation.WI_DOOM_ENTRY fail =
       ((ERR_CACHE_RACE, false), true)) ∧
    (itemOp ≠ WIOperation.WI_DOOM_ENTRY → r = OK → foundHere = false →
       OnIOCompleteItem leadOp r foundHere itemOp fail =
         ((ERR_CACHE_RACE, false), true)) ∧
    (fail = true →
       OnIOCompleteItem leadOp r foundHere itemOp fail =
         ((ERR_CACHE_RACE, false), true)) ∧
    (fail = false → r = OK → foundHere = true →
       OnIOCompleteItem leadOp r foundHere WIOperation.WI_CREATE_ENTRY fail =
         ((ERR_CACHE_CREATE_FAILURE, false), false)) ∧
    (fail = false → r ≠ OK → leadOp ≠ WIOperation.WI_CREATE_ENTRY →
       OnIOCompleteItem leadOp r foundHere WIOperation.WI_CREATE_ENTRY fail =
         ((ERR_CACHE_RACE, false), true)) ∧
    (fail = false → r ≠ OK →
       OnIOCompleteItem WIOperation.WI_CREATE_ENTRY r foundHere
           WIOperation.WI_CREATE_ENTRY fail = ((r, false), false)) ∧
    (fail = false → r ≠ OK →
       OnIOCompleteItem WIOperation.WI_CREATE_ENTRY r foundHere
           WIOperation.WI_OPEN_ENTRY fail = ((ERR_CACHE_RACE, false), true)) ∧
    (fail = false → r = OK → foundHere = true →
       OnIOCompleteItem leadOp r foundHere WIOperation.WI_OPEN_ENTRY fail =
         ((r, true), false)) ∧
    (fail = false → r ≠ OK → leadOp ≠ WIOperation.WI_CREATE_ENTRY →
       OnIOCompleteItem leadOp r foundHere WIOperation.WI_OPEN_ENTRY fail =
         ((r, false), false)) := by
  refine ⟨?_, ?_, ?_, ?_, ?_, ?_, ?_, ?_, ?_, ?_⟩
  · intro items
    induction items with
    | nil => intro i f; rfl
    | cons item rest ih =>
        intro i f
        simp only [OnIOCompleteDrain, List.length_cons, ih]
  · simp [OnIOCompleteItem]
  · intro hne hok hnf
    have hnotdoom : (itemOp = WIOperation.WI_DOOM_ENTRY) = False := by
      simp [hne]
    simp [OnIOCompleteItem, hnotdoom, hok, hnf]
  · intro hf
    subst hf
    by_cases hdoom : itemOp = WIOperation.WI_DOOM_ENTRY
    · simp [OnIOCompleteItem, hdoom]
    · by_cases hok : r = OK
      · by_cases hfound : foundHere = true
        · simp [OnIOCompleteItem, hdoom, hok, hfound]
        · have : foundHere = false := by simpa using hfound
          simp [OnIOCompleteItem, hdoom, hok, this]
      · simp [OnIOCompleteItem, hdoom, hok]
  · intro hf hok hfound
    subst hf
    simp [OnIOCompleteItem, hok, hfound, OK, ERR_CACHE_CREATE_FAILURE]
  · intro hf hnok hlead
    subst hf
    simp [OnIOCompleteItem, hnok, hlead]
  · intro hf hnok
    subst hf
    simp [OnIOCompleteItem, hnok]
  · intro hf hnok
    subst hf
    simp [OnIOCompleteItem, hnok]
  · intro hf hok hfound
    subst hf
    simp [OnIOCompleteItem, hok, hfound]
  · intro hf hnok hlead
    subst hf
    simp [OnIOCompleteItem, hnok, hlead]

/-- Closed witness for C3: a queued create behind a successful create lead
is told CACHE_CREATE_FAILURE, and a doom item races. -/
theorem onIOComplete_drain_table_witness :
    OnIOCompleteItem WIOperation.WI_CREATE_ENTRY OK true
        WIOperation.WI_CREATE_ENTRY false =
      ((ERR_CACHE_CREATE_FAILURE, false), false) ∧
    OnIOCompleteItem WIOperation.WI_CREATE_ENTRY OK true
        WIOperation.WI_DOOM_ENTRY false =
      ((ERR_CACHE_RACE, false), true) := by
  have h := onIOComplete_drain_table WIOperation.WI_CREATE_ENTRY
    WIOperation.WI_CREATE_ENTRY OK true false (fun _ => true)
  exact ⟨h.2.2.2.2.1 rfl rfl rfl, h.2.1⟩

end HttpCache
